import Mathlib

/-!
Shallow embedding of the client–server shortest-path application
(protocol codec in `protocol.cpp`, graph validation and Bellman–Ford in
`graph.cpp`, server dispatch in `server.cpp`, and the client's reliable
UDP channel in `client.cpp`).  Bytes are modelled as `Nat` values below
256, byte buffers as `List Nat`, C++ `int` matrix entries as `Int`, and
the unsigned 16/32-bit protocol fields as `Nat` with explicit range
hypotheses where overflow matters.
-/

namespace NetProto

/-- Size in bytes of the fixed message header (`kHeaderSize` in protocol.hpp). -/
def kHeaderSize : Nat := 12

/-- Maximum payload size accepted by `deserializeHeader` (`kMaxPayloadSize`, 1 MiB). -/
def kMaxPayloadSize : Nat := 2 ^ 20

/-- Command codes of the protocol (enum `Command` in protocol.hpp). -/
def cmdHelp : Nat := 1
def cmdUploadGraph : Nat := 2
def cmdPathQuery : Nat := 3
def cmdPathResult : Nat := 4
def cmdError : Nat := 5
def cmdAck : Nat := 6
def cmdExit : Nat := 7

/-- Status codes of the protocol (enum `Status` in protocol.hpp). -/
def stOk : Nat := 0
def stInvalidRequest : Nat := 1
def stInternalError : Nat := 2
def stNotReady : Nat := 3

/-- The 12-byte message header (`MessageHeader` in protocol.hpp).  `command`
and `status` are single bytes, `requestId` is a 16-bit field and
`payloadSize`, `reserved` are 32-bit fields; the C++ types enforce those
ranges, which appear here as explicit hypotheses when needed. -/
structure MessageHeader where
  command : Nat
  status : Nat
  requestId : Nat
  payloadSize : Nat
  reserved : Nat
deriving DecidableEq, Repr

/-- Big-endian encoding of a 16-bit value (`appendBytes<uint16_t>` after `htons`). -/
def be16 (x : Nat) : List Nat := [x / 256 % 256, x % 256]

/-- Big-endian encoding of a 32-bit value (`appendBytes<uint32_t>` after `htonl`). -/
def be32 (x : Nat) : List Nat :=
  [x / 16777216 % 256, x / 65536 % 256, x / 256 % 256, x % 256]

/-- Big-endian 16-bit read at `off` (`readBytes<uint16_t>` followed by `ntohs`);
the caller checks that the two bytes are in range. -/
def read16 (buf : List Nat) (off : Nat) : Nat :=
  buf.getD off 0 * 256 + buf.getD (off + 1) 0

/-- Big-endian 32-bit read at `off` (`readBytes<uint32_t>` followed by `ntohl`). -/
def read32 (buf : List Nat) (off : Nat) : Nat :=
  buf.getD off 0 * 16777216 + buf.getD (off + 1) 0 * 65536 +
    buf.getD (off + 2) 0 * 256 + buf.getD (off + 3) 0

/-- `serializeHeader` (protocol.cpp): command byte, status byte, then
requestId, payloadSize and reserved in network byte order. -/
def serializeHeader (h : MessageHeader) : List Nat :=
  [h.command % 256, h.status % 256] ++ be16 h.requestId ++
    be32 h.payloadSize ++ be32 h.reserved

/-- `deserializeHeader` (protocol.cpp): requires the buffer to be exactly 12
bytes, reads the five fields, and rejects a decoded `payloadSize` above the
1 MiB ceiling. -/
def deserializeHeader (buffer : List Nat) : Option MessageHeader :=
  if buffer.length ≠ kHeaderSize then none
  else
    let h : MessageHeader :=
      { command := buffer.getD 0 0
        status := buffer.getD 1 0
        requestId := read16 buffer 2
        payloadSize := read32 buffer 4
        reserved := read32 buffer 8 }
    if h.payloadSize > kMaxPayloadSize then none else some h

/-- Payload of an `UploadGraph` request (`UploadGraphPayload` in protocol.hpp). -/
structure UploadGraphPayload where
  vertexCount : Nat
  edgeCount : Nat
  incidenceBits : List Nat
  weights : List Nat
deriving DecidableEq, Repr

/-- Payload of a `PathQuery` request (`PathQueryPayload` in protocol.hpp). -/
structure PathQueryPayload where
  source : Nat
  target : Nat
deriving DecidableEq, Repr

/-- Payload of a `PathResult` response (`PathResultPayload` in protocol.hpp). -/
structure PathResultPayload where
  distance : Nat
  path : List Nat
deriving DecidableEq, Repr

/-- `deserializeUploadGraph` (protocol.cpp): reads vertexCount, edgeCount and
the declared bit-block size, copies that many bytes, reads the weight count
(which must equal edgeCount), reads the weights, and finally requires the
buffer to be consumed exactly.  The three leading reads share one error
message, so the `length < 8` check covers every failing `readBytes` there. -/
def deserializeUploadGraph (buffer : List Nat) :
    Except String UploadGraphPayload :=
  if buffer.length < 8 then .error "Header corrupt."
  else
    let vertexCount := read16 buffer 0
    let edgeCount := read16 buffer 2
    let bitsSize := read32 buffer 4
    if 8 + bitsSize > buffer.length then
      .error "Invalid incidence-bit block size."
    else
      let incidenceBits := (buffer.drop 8).take bitsSize
      let off := 8 + bitsSize
      if off + 4 > buffer.length then .error "Missing weights block."
      else
        let weightCount := read32 buffer off
        if weightCount ≠ edgeCount then
          .error "Weight count does not match edge count."
        else if off + 4 + weightCount * 4 > buffer.length then
          .error "Not enough data for the weight list."
        else if off + 4 + weightCount * 4 ≠ buffer.length then
          .error "Unprocessed bytes remain in the payload."
        else
          .ok { vertexCount := vertexCount
                edgeCount := edgeCount
                incidenceBits := incidenceBits
                weights :=
                  (List.range weightCount).map
                    (fun i => read32 buffer (off + 4 + 4 * i)) }

/-- `deserializePathQuery` (protocol.cpp): the buffer must be exactly 4
bytes, holding source and target in network byte order. -/
def deserializePathQuery (buffer : List Nat) : Option PathQueryPayload :=
  if buffer.length ≠ 4 then none
  else some { source := read16 buffer 0, target := read16 buffer 2 }

/-- `serializePathQuery` (protocol.cpp). -/
def serializePathQuery (p : PathQueryPayload) : List Nat :=
  be16 p.source ++ be16 p.target

/-- `serializePathResult` (protocol.cpp): distance, path length, then the
path vertices, all in network byte order. -/
def serializePathResult (p : PathResultPayload) : List Nat :=
  be32 p.distance ++ be16 p.path.length ++ (p.path.map be16).flatten

/-- UTF-8 bytes of a string, as `text.size()` bytes in the C++ code. -/
def stringBytes (s : String) : List Nat := s.toUTF8.toList.map (fun b => b.toNat)

/-- `serializeString` (protocol.cpp): two length bytes followed by the text. -/
def serializeString (text : String) : List Nat :=
  be16 (stringBytes text).length ++ stringBytes text

/-- Bit `i` of the packed block: the C++ reads `(bits[i / 8] >> (i % 8)) & 1`. -/
def getBit (bits : List Nat) (i : Nat) : Nat :=
  bits.getD (i / 8) 0 / 2 ^ (i % 8) % 2

/-- One packed bit per matrix entry (`matrix[v][e] != 0` in `packIncidenceMatrix`). -/
def bitOf (x : Int) : Nat := if x ≠ 0 then 1 else 0

/-- Value of one packed byte: bit `p` of the byte carries weight `2 ^ p`,
matching `bits[byteIndex] |= 1 << bitPos` in `packIncidenceMatrix`. -/
def byteVal : List Nat → Nat
  | [] => 0
  | b :: rest => b + 2 * byteVal rest

/-- Chunk a bit list into bytes of eight bits, least-significant bit first.
`packIncidenceMatrix` allocates `(totalBits + 7) / 8` zero bytes and writes
bit `i` into byte `i / 8` at position `i % 8`, which is exactly this
chunking of the row-major bit sequence; a trailing partial byte keeps its
unused high bits at zero. -/
def bytesOfBits : List Nat → List Nat
  | [] => []
  | b0 :: b1 :: b2 :: b3 :: b4 :: b5 :: b6 :: b7 :: rest =>
    byteVal [b0, b1, b2, b3, b4, b5, b6, b7] :: bytesOfBits rest
  | l => [byteVal l]

/-- `packIncidenceMatrix` (protocol.cpp): returns an empty block for an
empty matrix or empty first row, and otherwise packs the entries in
row-major order (vertex-major, edge within vertex), one bit per entry. -/
def packIncidenceMatrix (matrix : List (List Int)) : List Nat :=
  match matrix with
  | [] => []
  | row0 :: _ =>
    if row0.length = 0 then []
    else bytesOfBits ((matrix.map (fun row => row.map bitOf)).flatten)

/-- `unpackIncidenceMatrix` (protocol.cpp): rejects an empty shape, requires
the block length to be exactly `(vertexCount * edgeCount + 7) / 8`, and
rebuilds the `vertexCount × edgeCount` 0/1 matrix from the bits. -/
def unpackIncidenceMatrix (vertexCount edgeCount : Nat) (bits : List Nat) :
    Except String (List (List Int)) :=
  if vertexCount = 0 ∨ edgeCount = 0 then .error "Empty matrix."
  else if bits.length ≠ (vertexCount * edgeCount + 7) / 8 then
    .error "Bit block size does not match the matrix."
  else
    .ok ((List.range vertexCount).map (fun v =>
      (List.range edgeCount).map (fun e =>
        if getBit bits (v * edgeCount + e) = 1 then (1 : Int) else 0)))

end NetProto

namespace GraphModel

open NetProto

/-- Graph description (`GraphDefinition` in graph.hpp): vertex and edge
counts, the incidence matrix (C++ `int` entries, expected 0/1), and one
weight per edge. -/
structure GraphDefinition where
  vertexCount : Nat
  edgeCount : Nat
  incidence : List (List Int)
  weights : List Nat
deriving DecidableEq, Repr

/-- Result of `validateGraph` (`ValidationResult` in graph.hpp). -/
structure ValidationResult where
  ok : Bool
  message : String
deriving DecidableEq, Repr

/-- Result of `bellmanFord` (`PathComputation` in graph.hpp). -/
structure PathComputation where
  reachable : Bool
  distance : Nat
  path : List Nat
  error : String
deriving DecidableEq, Repr

/-- Minimum vertex count (`kMinVertices` in graph.cpp). -/
def kMinVertices : Nat := 6

/-- Minimum edge count (`kMinEdges` in graph.cpp). -/
def kMinEdges : Nat := 6

/-- Infinity sentinel of the shortest-path algorithm
(`kInfinity = std::numeric_limits<uint32_t>::max() / 4` in graph.cpp). -/
def kInfinity : Nat := (2 ^ 32 - 1) / 4

/-- Entry `incidence[v][e]`; all reads in the C++ code are in bounds once
the matrix shape has been checked, so the defaults are never consulted
on the paths the theorems describe. -/
def entryI (g : GraphDefinition) (v e : Nat) : Int :=
  (g.incidence.getD v []).getD e 0

/-- Number of ones in column `e` of the incidence matrix (the `ones`
counter of `checkIncidenceMatrix`). -/
def columnOnes (g : GraphDefinition) (e : Nat) : Nat :=
  ((List.range g.vertexCount).filter (fun v => entryI g v e = 1)).length

/-- Column check of `checkIncidenceMatrix` (graph.cpp): every entry of the
column must be 0 or 1, and the column must contain one or two ones. -/
def checkColumn (g : GraphDefinition) (e : Nat) : Except String Unit :=
  if (List.range g.vertexCount).all
      (fun v => entryI g v e == 0 || entryI g v e == 1) then
    if columnOnes g e = 0 then
      .error "Every edge must be incident to at least one vertex."
    else if columnOnes g e > 2 then
      .error "An edge cannot join more than two vertices."
    else .ok ()
  else .error "The incidence matrix may contain only 0 or 1."

/-- Left-to-right iteration of `checkColumn` over the columns, stopping at
the first failure, as the loop over `e` in `checkIncidenceMatrix` does. -/
def checkColumns (g : GraphDefinition) : List Nat → Except String Unit
  | [] => .ok ()
  | e :: rest =>
    match checkColumn g e with
    | .error m => .error m
    | .ok _ => checkColumns g rest

/-- `checkIncidenceMatrix` (graph.cpp): row count must equal `vertexCount`,
every row length must equal `edgeCount`, then every column is checked. -/
def checkIncidenceMatrix (g : GraphDefinition) : Except String Unit :=
  if g.incidence.length ≠ g.vertexCount then
    .error "Incidence matrix row count does not match the vertex count."
  else if g.incidence.any (fun row => row.length ≠ g.edgeCount) then
    .error "Incidence matrix column count does not match the edge count."
  else checkColumns g (List.range g.edgeCount)

/-- `validateGraph` (graph.cpp): at least 6 vertices and 6 edges, exactly
one weight per edge, no weight above `kInfinity` (note: strictly above, so
a weight equal to `kInfinity` passes), and a well-formed incidence matrix. -/
def validateGraph (g : GraphDefinition) : ValidationResult :=
  if g.vertexCount < kMinVertices then
    { ok := false, message := "The graph must contain at least 6 vertices." }
  else if g.edgeCount < kMinEdges then
    { ok := false, message := "The graph must contain at least 6 edges." }
  else if g.weights.length ≠ g.edgeCount then
    { ok := false, message := "The weight count must equal the edge count." }
  else if g.weights.any (fun w => w > kInfinity) then
    { ok := false, message := "An edge weight is too large." }
  else
    match checkIncidenceMatrix g with
    | .error m => { ok := false, message := m }
    | .ok _ => { ok := true, message := "" }

/-- One edge of `collectEdges` (graph.cpp): the vertices incident to column
`e` in ascending order; a single endpoint yields a self-loop, a weight equal
to `kInfinity` is rejected. -/
def collectEdge (g : GraphDefinition) (e : Nat) :
    Except String (Nat × Nat × Nat) :=
  let endpoints := (List.range g.vertexCount).filter (fun v => entryI g v e = 1)
  if endpoints.length = 0 then
    .error "Found a matrix column with no incident vertices."
  else if endpoints.length > 2 then
    .error "An edge joins more than two vertices."
  else
    let weight := g.weights.getD e 0
    if weight = kInfinity then
      .error "An edge weight exceeds the allowed range."
    else
      match endpoints with
      | [a] => .ok (a, a, weight)
      | a :: b :: _ => .ok (a, b, weight)
      | [] => .error "Found a matrix column with no incident vertices."

/-- Iterate `collectEdge` over the given column indices, stopping at the
first failure (the loop body of `collectEdges` clears and returns). -/
def collectEdgesFrom (g : GraphDefinition) :
    List Nat → Except String (List (Nat × Nat × Nat))
  | [] => .ok []
  | e :: rest =>
    match collectEdge g e with
    | .error m => .error m
    | .ok edge =>
      match collectEdgesFrom g rest with
      | .error m => .error m
      | .ok edges => .ok (edge :: edges)

/-- `collectEdges` (graph.cpp): the edge list of the graph, one edge per
column of the incidence matrix. -/
def collectEdges (g : GraphDefinition) :
    Except String (List (Nat × Nat × Nat)) :=
  collectEdgesFrom g (List.range g.edgeCount)

/-- Distance and predecessor arrays of the Bellman–Ford loop (`dist` and
`parent` in graph.cpp; `parent` holds `-1` or a vertex index). -/
structure BFState where
  dist : List Nat
  parent : List Int
deriving DecidableEq, Repr

/-- Relaxation of one undirected edge, exactly as the loop body in
`bellmanFord` (graph.cpp): first `u -> v`, then `v -> u` on the already
updated distances; the reverse direction never rewrites `parent[source]`.
The Boolean is the pass's `updated` flag. -/
def relaxStep (source : Nat) (acc : BFState × Bool) (edge : Nat × Nat × Nat) :
    BFState × Bool :=
  let st := acc.1
  let upd := acc.2
  let u := edge.1
  let v := edge.2.1
  let w := edge.2.2
  let du := st.dist.getD u 0
  let dv := st.dist.getD v 0
  let step1 : BFState × Bool :=
    if du ≠ kInfinity ∧ du + w < dv then
      ({ dist := st.dist.set v (du + w),
         parent := st.parent.set v (Int.ofNat u) }, true)
    else (st, upd)
  let st1 := step1.1
  let upd1 := step1.2
  let du1 := st1.dist.getD u 0
  let dv1 := st1.dist.getD v 0
  if dv1 ≠ kInfinity ∧ dv1 + w < du1 then
    ({ dist := st1.dist.set u (dv1 + w),
       parent := if u ≠ source then st1.parent.set u (Int.ofNat v)
                 else st1.parent }, true)
  else (st1, upd1)

/-- One full pass over the edge list with a fresh `updated := false` flag. -/
def relaxPass (edges : List (Nat × Nat × Nat)) (source : Nat) (st : BFState) :
    BFState × Bool :=
  edges.foldl (relaxStep source) (st, false)

/-- The relaxation loop of `bellmanFord` with its early exit: run up to `k`
passes, stopping as soon as a pass performs no update (`if (!updated) break`). -/
def bfLoop (edges : List (Nat × Nat × Nat)) (source : Nat) :
    Nat → BFState → BFState
  | 0, st => st
  | k + 1, st =>
    if (relaxPass edges source st).2 then
      bfLoop edges source k (relaxPass edges source st).1
    else (relaxPass edges source st).1

/-- The same relaxation loop without the early exit: always runs all `k`
passes.  This is the spec's unoptimized variant, used only to state the
refinement claim about the early exit. -/
def bfLoopFull (edges : List (Nat × Nat × Nat)) (source : Nat) :
    Nat → BFState → BFState
  | 0, st => st
  | k + 1, st => bfLoopFull edges source k (relaxPass edges source st).1

/-- Path reconstruction loop of `bellmanFord`: follow `parent` from
`target`, pushing each vertex and stopping at `source` or `-1`.  The C++
loop is unbounded; `fuel` (instantiated with the vertex count) covers every
terminating execution, since a reconstructed simple path visits each vertex
at most once. -/
def buildPath (parent : List Int) (source : Nat) :
    Nat → Int → List Nat
  | 0, _ => []
  | fuel + 1, v =>
    if v = -1 then []
    else
      v.toNat ::
        (if v = Int.ofNat source then []
         else buildPath parent source fuel (parent.getD v.toNat (-1)))

/-- Shared tail of `bellmanFord` after the relaxation loop: unreachable
targets report `kInfinity`, otherwise the path is rebuilt and checked. -/
def finishComputation (g : GraphDefinition) (source target : Nat)
    (final : BFState) : PathComputation :=
  if final.dist.getD target 0 = kInfinity then
    { reachable := false, distance := kInfinity, path := [],
      error := "No path between the vertices." }
  else
    let path := (buildPath final.parent source g.vertexCount
      (Int.ofNat target)).reverse
    if path = [] ∨ path.headD 0 ≠ source then
      { reachable := false, distance := 0, path := [],
        error := "Failed to reconstruct the path." }
    else
      { reachable := true, distance := final.dist.getD target 0,
        path := path, error := "" }

/-- `bellmanFord` (graph.cpp): argument checks, validation, edge collection,
`vertexCount - 1` relaxation passes with early exit, then path rebuilding. -/
def bellmanFord (g : GraphDefinition) (source target : Nat) :
    PathComputation :=
  if g.vertexCount = 0 then
    { reachable := false, distance := 0, path := [],
      error := "The graph is not initialized." }
  else if source ≥ g.vertexCount ∨ target ≥ g.vertexCount then
    { reachable := false, distance := 0, path := [],
      error := "The vertices are out of the graph's range." }
  else
    let validation := validateGraph g
    if validation.ok = false then
      { reachable := false, distance := 0, path := [],
        error := validation.message }
    else
      match collectEdges g with
      | .error msg =>
        { reachable := false, distance := 0, path := [], error := msg }
      | .ok edges =>
        let n := g.vertexCount
        let init : BFState :=
          { dist := (List.replicate n kInfinity).set source 0,
            parent := List.replicate n (-1) }
        finishComputation g source target (bfLoop edges source (n - 1) init)

/-- The unoptimized Bellman–Ford variant described by the refinement claim:
identical to `bellmanFord` except that the relaxation loop always runs all
`vertexCount - 1` passes (no early exit). -/
def bellmanFordUnoptimized (g : GraphDefinition) (source target : Nat) :
    PathComputation :=
  if g.vertexCount = 0 then
    { reachable := false, distance := 0, path := [],
      error := "The graph is not initialized." }
  else if source ≥ g.vertexCount ∨ target ≥ g.vertexCount then
    { reachable := false, distance := 0, path := [],
      error := "The vertices are out of the graph's range." }
  else
    let validation := validateGraph g
    if validation.ok = false then
      { reachable := false, distance := 0, path := [],
        error := validation.message }
    else
      match collectEdges g with
      | .error msg =>
        { reachable := false, distance := 0, path := [], error := msg }
      | .ok edges =>
        let n := g.vertexCount
        let init : BFState :=
          { dist := (List.replicate n kInfinity).set source 0,
            parent := List.replicate n (-1) }
        finishComputation g source target (bfLoopFull edges source (n - 1) init)

end GraphModel

namespace ServerModel

open NetProto GraphModel

/-- Per-client session state (`ClientContext` in server.cpp): the graph
slot and the flag saying whether a graph has been stored (`HasGraph`
versus `NoGraph`). -/
structure ClientContext where
  graph : GraphDefinition
  hasGraph : Bool
deriving DecidableEq, Repr

/-- The graph slot of a fresh session (`graph::GraphDefinition` default). -/
def emptyGraph : GraphDefinition :=
  { vertexCount := 0, edgeCount := 0, incidence := [], weights := [] }

/-- A fresh session: state `NoGraph`. -/
def freshContext : ClientContext := { graph := emptyGraph, hasGraph := false }

/-- Help text returned by the server (`buildHelpText` in server.cpp);
the exact wording is irrelevant to every claim. -/
def helpText : String := "Commands: help, upload_graph, path_query, exit."

/-- `decodeGraphPayload` (server.cpp): deserialize the upload payload,
unpack the incidence matrix, then validate the graph. -/
def decodeGraphPayload (payload : List Nat) :
    Except String GraphDefinition :=
  match deserializeUploadGraph payload with
  | .error e => .error e
  | .ok encoded =>
    match unpackIncidenceMatrix encoded.vertexCount encoded.edgeCount
        encoded.incidenceBits with
    | .error e => .error e
    | .ok m =>
      let gdef : GraphDefinition :=
        { vertexCount := encoded.vertexCount,
          edgeCount := encoded.edgeCount,
          incidence := m,
          weights := encoded.weights }
      let validation := validateGraph gdef
      if validation.ok = false then .error validation.message
      else .ok gdef

/-- `buildPathResultPayload` (server.cpp): unreachable targets become an
`Error`/`NotReady` string reply, reachable ones a `PathResult`/`Ok` reply. -/
def buildPathResultPayload (result : PathComputation) (requestId : Nat) :
    MessageHeader × List Nat :=
  if result.reachable = false then
    let text := if result.error = "" then "Path not found." else result.error
    ({ command := cmdError, status := stNotReady, requestId := requestId,
       payloadSize := (serializeString text).length, reserved := 0 },
     serializeString text)
  else
    let payload := serializePathResult
      { distance := result.distance, path := result.path }
    ({ command := cmdPathResult, status := stOk, requestId := requestId,
       payloadSize := payload.length, reserved := 0 },
     payload)

/-- Pair a response header with its payload, setting `payloadSize` the way
`sendTcpMessage` does just before sending. -/
def finishResponse (h : MessageHeader) (payload : List Nat) :
    MessageHeader × List Nat :=
  ({ h with payloadSize := payload.length }, payload)

/-- One iteration of the request loop in `handleTcpClient` (server.cpp):
given the session state and a decoded request, produce the new session
state and the response message.  The response header starts out as
`Error`/`InvalidRequest` with the request's id (`makeHeader` call), and
`makeErrorPayload` keeps exactly that command and status. -/
def handleRequest (ctx : ClientContext) (requestHeader : MessageHeader)
    (payload : List Nat) : ClientContext × MessageHeader × List Nat :=
  let respInit : MessageHeader :=
    { command := cmdError, status := stInvalidRequest,
      requestId := requestHeader.requestId, payloadSize := 0, reserved := 0 }
  if requestHeader.command = cmdHelp then
    (ctx, finishResponse { respInit with command := cmdHelp, status := stOk }
      (serializeString helpText))
  else if requestHeader.command = cmdUploadGraph then
    match decodeGraphPayload payload with
    | .error e => (ctx, finishResponse respInit (serializeString e))
    | .ok gdef =>
      ({ graph := gdef, hasGraph := true },
       finishResponse { respInit with command := cmdUploadGraph, status := stOk }
         (serializeString "Graph accepted by the server."))
  else if requestHeader.command = cmdPathQuery then
    match deserializePathQuery payload with
    | none =>
      (ctx, finishResponse respInit (serializeString "Malformed PathQuery."))
    | some query =>
      if ctx.hasGraph = false then
        (ctx, finishResponse respInit
          (serializeString "No graph loaded. Use upload_graph."))
      else
        let computation := bellmanFord ctx.graph query.source query.target
        (ctx, buildPathResultPayload computation requestHeader.requestId)
  else if requestHeader.command = cmdExit then
    (ctx, finishResponse { respInit with command := cmdExit, status := stOk }
      (serializeString "Goodbye."))
  else
    (ctx, finishResponse respInit (serializeString "Unknown command."))

end ServerModel

namespace ClientModel

open NetProto

/-- Timeout per wait in seconds (`kAckTimeoutSeconds` in client.cpp);
real time is abstracted into discrete wait outcomes below. -/
def kAckTimeoutSeconds : Nat := 3

/-- Number of send attempts of the reliable UDP channel (`kAckRetries`). -/
def kAckRetries : Nat := 3

/-- Outcome of one `select`/`recvfrom` wait of `sendUdpWithAck`: either the
timeout expired (`none`) or a datagram with the given raw bytes arrived. -/
abbrev WaitOutcome := Option (List Nat)

/-- Result of one send attempt of `sendUdpWithAck`: either a response was
accepted and returned to the caller, or the attempt failed and the loop
continues with the remaining inbound schedule. -/
inductive AttemptOutcome where
  | success (header : MessageHeader) (payload : List Nat)
  | fail (rest : List WaitOutcome)
deriving DecidableEq, Repr

/-- One iteration of the retry loop in `sendUdpWithAck` (client.cpp),
after the datagram has been (re)sent.  The first wait accepts a matching
`Ack` with empty payload (and then waits once more for the data response,
which is returned without any requestId or command check), accepts any
other datagram only when its requestId matches, and otherwise discards the
datagram and lets the attempt fail.  An exhausted schedule behaves like a
timeout. -/
def runAttempt (reqId : Nat) (sched : List WaitOutcome) : AttemptOutcome :=
  match sched with
  | [] => .fail []
  | none :: rest => .fail rest
  | some dgram :: rest =>
    if dgram.length < kHeaderSize then .fail rest
    else
      match deserializeHeader (dgram.take kHeaderSize) with
      | none => .fail rest
      | some ackHeader =>
        let payloadPart := dgram.drop kHeaderSize
        if ackHeader.command = cmdAck ∧ ackHeader.requestId = reqId then
          if payloadPart = [] then
            match rest with
            | [] => .fail []
            | none :: rest2 => .fail rest2
            | some resp :: rest2 =>
              if resp.length < kHeaderSize then .fail rest2
              else
                match deserializeHeader (resp.take kHeaderSize) with
                | none => .fail rest2
                | some responseHeader =>
                  .success responseHeader (resp.drop kHeaderSize)
          else .fail rest
        else
          if ackHeader.requestId = reqId then .success ackHeader payloadPart
          else .fail rest

/-- The retry loop of `sendUdpWithAck` over at most `attempts` iterations.
Each iteration performs exactly one `sendto` of the identical packet, so
the first component counts the sends performed; the second is the value
returned to the caller (`nullopt` is `none`). -/
def udpAttempts (reqId : Nat) :
    Nat → List WaitOutcome → Nat × Option (MessageHeader × List Nat)
  | 0, _ => (0, none)
  | n + 1, sched =>
    match runAttempt reqId sched with
    | .success h p => (1, some (h, p))
    | .fail rest =>
      let next := udpAttempts reqId n rest
      (next.1 + 1, next.2)

/-- `sendUdpWithAck` (client.cpp) for a request with header id `reqId`,
against the given schedule of wait outcomes: up to `kAckRetries = 3`
attempts, reporting the number of sends and the accepted response, if any. -/
def sendUdpWithAck (reqId : Nat) (sched : List WaitOutcome) :
    Nat × Option (MessageHeader × List Nat) :=
  udpAttempts reqId kAckRetries sched

/-- A schedule entry that the first wait of `sendUdpWithAck` treats as a
matching acknowledgement: a parseable datagram whose command is `Ack`,
whose requestId matches, and whose payload is empty (the branch that
starts the second wait). -/
def matchingEmptyAck (reqId : Nat) (o : WaitOutcome) : Bool :=
  match o with
  | none => false
  | some d =>
    if d.length < kHeaderSize then false
    else
      match deserializeHeader (d.take kHeaderSize) with
      | none => false
      | some h =>
        (h.command == cmdAck) && (h.requestId == reqId) &&
          (d.drop kHeaderSize == [])

/-- A schedule entry carrying a qualifying datagram in the sense of the
retry claim: parseable and with matching requestId. -/
def qualifies (reqId : Nat) (o : WaitOutcome) : Bool :=
  match o with
  | none => false
  | some d =>
    if d.length < kHeaderSize then false
    else
      match deserializeHeader (d.take kHeaderSize) with
      | none => false
      | some h => h.requestId == reqId

end ClientModel

section SpecPredicates

open NetProto GraphModel

/-- The validity predicate exactly as the validation claim words it: at
least 6 vertices and edges, one weight per edge each strictly below the
infinity sentinel, a `vertexCount × edgeCount` matrix of 0/1 entries, and
one or two ones per column. -/
def claimValidGraph (g : GraphDefinition) : Prop :=
  6 ≤ g.vertexCount ∧ 6 ≤ g.edgeCount ∧
  g.weights.length = g.edgeCount ∧
  (∀ w ∈ g.weights, w < kInfinity) ∧
  g.incidence.length = g.vertexCount ∧
  (∀ row ∈ g.incidence, row.length = g.edgeCount) ∧
  (∀ e < g.edgeCount,
    (∀ v < g.vertexCount, entryI g v e = 0 ∨ entryI g v e = 1) ∧
    (columnOnes g e = 1 ∨ columnOnes g e = 2))

/-- The same predicate with the weight bound the code actually enforces:
`validateGraph` rejects only weights strictly above the sentinel, so a
weight equal to `kInfinity` is accepted. -/
def amendedValidGraph (g : GraphDefinition) : Prop :=
  6 ≤ g.vertexCount ∧ 6 ≤ g.edgeCount ∧
  g.weights.length = g.edgeCount ∧
  (∀ w ∈ g.weights, w ≤ kInfinity) ∧
  g.incidence.length = g.vertexCount ∧
  (∀ row ∈ g.incidence, row.length = g.edgeCount) ∧
  (∀ e < g.edgeCount,
    (∀ v < g.vertexCount, entryI g v e = 0 ∨ entryI g v e = 1) ∧
    (columnOnes g e = 1 ∨ columnOnes g e = 2))

instance (g : GraphDefinition) : Decidable (claimValidGraph g) := by
  unfold claimValidGraph; infer_instance

instance (g : GraphDefinition) : Decidable (amendedValidGraph g) := by
  unfold amendedValidGraph; infer_instance

end SpecPredicates

section ConcreteInputs

open NetProto GraphModel ServerModel ClientModel

/-- Incidence matrix of the 6-vertex cycle 0-1, 1-2, 2-3, 3-4, 4-5, 5-0:
column `e` has its ones in rows `e` and `(e + 1) % 6`. -/
def cycleMatrix : List (List Int) :=
  [[1, 0, 0, 0, 0, 1],
   [1, 1, 0, 0, 0, 0],
   [0, 1, 1, 0, 0, 0],
   [0, 0, 1, 1, 0, 0],
   [0, 0, 0, 1, 1, 0],
   [0, 0, 0, 0, 1, 1]]

/-- The 6-vertex cycle graph with all weights 1. -/
def cycleGraph : GraphDefinition :=
  { vertexCount := 6, edgeCount := 6, incidence := cycleMatrix,
    weights := [1, 1, 1, 1, 1, 1] }

/-- The cycle graph with every weight equal to the infinity sentinel:
accepted by `validateGraph` although the claim's strict bound rejects it. -/
def sentinelWeightGraph : GraphDefinition :=
  { vertexCount := 6, edgeCount := 6, incidence := cycleMatrix,
    weights := List.replicate 6 kInfinity }

/-- An `UploadGraph` payload whose declared bit-block size is 0 even though
`vertexCount = edgeCount = 6` would require `ceil(36 / 8) = 5` bytes:
6, 6, bitsSize 0, weightCount 6, then six weights of value 1. -/
def shortBitsBuffer : List Nat :=
  [0, 6, 0, 6, 0, 0, 0, 0, 0, 0, 0, 6] ++
    ([0, 0, 0, 1] ++ [0, 0, 0, 1] ++ [0, 0, 0, 1] ++
     [0, 0, 0, 1] ++ [0, 0, 0, 1] ++ [0, 0, 0, 1])

/-- The payload `deserializeUploadGraph` extracts from `shortBitsBuffer`. -/
def shortBitsPayload : UploadGraphPayload :=
  { vertexCount := 6, edgeCount := 6, incidenceBits := [],
    weights := [1, 1, 1, 1, 1, 1] }

/-- The packed incidence bits of the cycle matrix (5 bytes). -/
def cycleBits : List Nat := packIncidenceMatrix cycleMatrix

/-- A fully well-formed `UploadGraph` payload carrying the cycle graph:
6, 6, bitsSize 5, the packed bits, weightCount 6, six weights of value 1. -/
def cycleUploadBuffer : List Nat :=
  [0, 6, 0, 6, 0, 0, 0, 5] ++ cycleBits ++ [0, 0, 0, 6] ++
    ([0, 0, 0, 1] ++ [0, 0, 0, 1] ++ [0, 0, 0, 1] ++
     [0, 0, 0, 1] ++ [0, 0, 0, 1] ++ [0, 0, 0, 1])

/-- The payload decoded from `cycleUploadBuffer`. -/
def cycleUploadPayload : UploadGraphPayload :=
  { vertexCount := 6, edgeCount := 6, incidenceBits := cycleBits,
    weights := [1, 1, 1, 1, 1, 1] }

/-- An `UploadGraph` payload describing a 5-vertex graph (6 edges, a
5 × 6 bit block of zeros, six weights of value 1): decodes structurally
but fails validation. -/
def fiveVertexBuffer : List Nat :=
  [0, 5, 0, 6, 0, 0, 0, 4, 0, 0, 0, 0, 0, 0, 0, 6] ++
    ([0, 0, 0, 1] ++ [0, 0, 0, 1] ++ [0, 0, 0, 1] ++
     [0, 0, 0, 1] ++ [0, 0, 0, 1] ++ [0, 0, 0, 1])

/-- A `PathQuery` request header (id 7, payload 4 bytes). -/
def pathQueryHeader : MessageHeader :=
  { command := cmdPathQuery, status := stOk, requestId := 7,
    payloadSize := 4, reserved := 0 }

/-- An `UploadGraph` request header (id 9). -/
def uploadHeader : MessageHeader :=
  { command := cmdUploadGraph, status := stOk, requestId := 9,
    payloadSize := 40, reserved := 0 }

/-- A matching `Ack` datagram for request id 1 (empty payload). -/
def ackDatagram : List Nat :=
  serializeHeader { command := cmdAck, status := stOk, requestId := 1,
                    payloadSize := 0, reserved := 0 }

/-- The header of a stray datagram: an `Ack` for the unrelated id 999. -/
def strayHeader : MessageHeader :=
  { command := cmdAck, status := stOk, requestId := 999,
    payloadSize := 0, reserved := 0 }

/-- A schedule in which the first wait yields a matching empty `Ack` and
the second wait yields the stray datagram with the wrong id. -/
def straySchedule : List WaitOutcome :=
  [some ackDatagram, some (serializeHeader strayHeader)]

/-- The header of a direct (non-`Ack`) response for request id 5. -/
def directHeader : MessageHeader :=
  { command := cmdPathResult, status := stOk, requestId := 5,
    payloadSize := 0, reserved := 0 }

/-- A schedule delivering only the direct response for request id 5. -/
def directSchedule : List WaitOutcome := [some (serializeHeader directHeader)]

/-- A schedule with two timeouts and one short garbage datagram: no
qualifying datagram for any request id. -/
def silentSchedule : List WaitOutcome := [none, some [1, 2, 3], none]

end ConcreteInputs

section Theorems

open NetProto GraphModel ServerModel ClientModel

/-- A session that already holds the cycle graph. -/
def loadedContext : ClientContext := { graph := cycleGraph, hasGraph := true }

/-- C5: every header whose fields fit their wire types (single bytes for
command and status, 16 bits for requestId, 32 bits for reserved) and whose
payloadSize does not exceed the 1 MiB ceiling serializes to exactly 12
bytes and deserializes back to an equal header in all five fields. -/
theorem serializeHeader_roundtrip (h : MessageHeader)
    (hc : h.command < 256) (hs : h.status < 256)
    (hr : h.requestId < 65536) (hp : h.payloadSize ≤ kMaxPayloadSize)
    (hv : h.reserved < 4294967296) :
    (serializeHeader h).length = 12 ∧
      deserializeHeader (serializeHeader h) = some h := by
  have e0 : h.command % 256 = h.command := Nat.mod_eq_of_lt hc
  have e1 : h.status % 256 = h.status := Nat.mod_eq_of_lt hs
  constructor
  · simp [serializeHeader, be16, be32]
  · simp only [serializeHeader, be16, be32, deserializeHeader, kHeaderSize,
      read16, read32, List.cons_append, List.nil_append,
      List.getD_cons_zero, List.getD_cons_succ, List.length_cons,
      List.length_nil]
    have e2 : h.requestId / 256 % 256 * 256 + h.requestId % 256 =
        h.requestId := by omega
    have e3 : h.payloadSize / 16777216 % 256 * 16777216 +
        h.payloadSize / 65536 % 256 * 65536 +
        h.payloadSize / 256 % 256 * 256 + h.payloadSize % 256 =
        h.payloadSize := by
      have : h.payloadSize < 4294967296 := by
        have : kMaxPayloadSize < 4294967296 := by decide
        omega
      omega
    have e4 : h.reserved / 16777216 % 256 * 16777216 +
        h.reserved / 65536 % 256 * 65536 +
        h.reserved / 256 % 256 * 256 + h.reserved % 256 = h.reserved := by
      omega
    simp only [e0, e1, e2, e3, e4]
    rw [if_neg, if_neg]
    · simp [Nat.not_lt] at hp ⊢
      exact hp
    · decide

/-- Witness for C5 at the concrete header (3, 0, 513, 1048576, 7). -/
theorem serializeHeader_roundtrip_witness :
    (serializeHeader
        { command := 3, status := 0, requestId := 513,
          payloadSize := 1048576, reserved := 7 }).length = 12 ∧
      deserializeHeader (serializeHeader
        { command := 3, status := 0, requestId := 513,
          payloadSize := 1048576, reserved := 7 }) =
      some { command := 3, status := 0, requestId := 513,
             payloadSize := 1048576, reserved := 7 } :=
  serializeHeader_roundtrip
    { command := 3, status := 0, requestId := 513,
      payloadSize := 1048576, reserved := 7 }
    (by decide) (by decide) (by decide) (by decide) (by decide)

/-- C7: on the 6-vertex unit-weight cycle, the query from 0 to 3 is
reachable with distance 3, and the returned path is one of the two
symmetric optima (the implementation deterministically picks 0-1-2-3). -/
theorem bellmanFord_cycle_example :
    (bellmanFord cycleGraph 0 3).reachable = true ∧
    (bellmanFord cycleGraph 0 3).distance = 3 ∧
    ((bellmanFord cycleGraph 0 3).path = [0, 1, 2, 3] ∨
     (bellmanFord cycleGraph 0 3).path = [0, 5, 4, 3]) := by
  refine ⟨by decide, by decide, Or.inl (by decide)⟩

/-- C2 (code behaviour at the claim's failing input): a structurally
well-formed `PathQuery` on a fresh `NoGraph` session leaves the session
unchanged but is answered with status `InvalidRequest`, not the `NotReady`
promised by the spec and by the `Status` enum's own documentation:
`makeErrorPayload` hardcodes `InvalidRequest` for the no-graph reply. -/
theorem pathQuery_noGraph_replies_invalidRequest :
    (handleRequest freshContext pathQueryHeader [0, 0, 0, 3]).1 =
      freshContext ∧
    (handleRequest freshContext pathQueryHeader [0, 0, 0, 3]).2.1.command =
      cmdError ∧
    (handleRequest freshContext pathQueryHeader [0, 0, 0, 3]).2.1.status =
      stInvalidRequest ∧
    (handleRequest freshContext pathQueryHeader [0, 0, 0, 3]).2.1.status ≠
      stNotReady := by
  refine ⟨by decide, by decide, by decide, by decide⟩

/-- C4 counterexample: a graph whose weights all equal the infinity
sentinel passes `validateGraph` (the code rejects only weights strictly
above the sentinel), refuting the claim's strictly-below bound. -/
theorem validateGraph_sentinel_weight_cex :
    (validateGraph sentinelWeightGraph).ok = true ∧
    ¬ claimValidGraph sentinelWeightGraph := by
  constructor
  · decide
  · decide

/-- C3 counterexample: a buffer declaring a 0-byte bit block for a
6-by-6 matrix decodes successfully even though the ceiling formula
requires 5 bytes, so `deserializeUploadGraph` alone does not enforce the
bit-block invariant. -/
theorem deserializeUploadGraph_accepts_mismatched_bits_cex :
    deserializeUploadGraph shortBitsBuffer = .ok shortBitsPayload ∧
    shortBitsPayload.incidenceBits.length ≠
      (shortBitsPayload.vertexCount * shortBitsPayload.edgeCount + 7) / 8 :=
  ⟨by rfl, by decide⟩

/-- C1 counterexample: after a matching empty `Ack`, the second awaited
datagram is accepted and returned without any check, here an `Ack` whose
requestId 999 does not match the request id 1. -/
theorem udp_secondWait_unchecked_cex :
    (sendUdpWithAck 1 straySchedule).2 = some (strayHeader, []) ∧
    strayHeader.requestId ≠ 1 ∧ strayHeader.command = cmdAck := by
  refine ⟨by decide, by decide, by decide⟩

end Theorems

section Theorems2

open NetProto GraphModel ServerModel ClientModel

/-- Helper: a successful `unpackIncidenceMatrix` forces the bit block to
have exactly the ceiling length. -/
theorem unpack_ok_len {vc ec : Nat} {bits : List Nat} {m : List (List Int)}
    (h : unpackIncidenceMatrix vc ec bits = .ok m) :
    bits.length = (vc * ec + 7) / 8 := by
  unfold unpackIncidenceMatrix at h
  split at h
  · exact absurd h (by simp)
  · split at h
    · exact absurd h (by simp)
    · omega

/-- C3 (amended): `deserializeUploadGraph` itself accepts any declared
bit-block size that fits the buffer; the ceiling invariant is enforced one
stage later, by `unpackIncidenceMatrix` inside `decodeGraphPayload`: if the
full decode pipeline succeeds, the deserialized payload's bit block has
exactly `ceil(vertexCount * edgeCount / 8)` bytes. -/
theorem upload_decode_bits_ceiling (buf : List Nat)
    (p : UploadGraphPayload) (g : GraphDefinition)
    (hser : deserializeUploadGraph buf = .ok p)
    (hdec : decodeGraphPayload buf = .ok g) :
    p.incidenceBits.length = (p.vertexCount * p.edgeCount + 7) / 8 := by
  unfold decodeGraphPayload at hdec
  rw [hser] at hdec
  dsimp only at hdec
  cases hu : unpackIncidenceMatrix p.vertexCount p.edgeCount
      p.incidenceBits with
  | error e => rw [hu] at hdec; exact absurd hdec (by simp)
  | ok m => exact unpack_ok_len hu

/-- Witness for C3's amended theorem on a fully valid cycle-graph upload. -/
theorem upload_decode_bits_ceiling_witness :
    cycleUploadPayload.incidenceBits.length =
      (cycleUploadPayload.vertexCount * cycleUploadPayload.edgeCount + 7) /
        8 :=
  upload_decode_bits_ceiling cycleUploadBuffer cycleUploadPayload cycleGraph
    (by rfl) (by rfl)

/-- C9: an `UploadGraph` request whose payload fails decoding or
validation is answered with `Error`/`InvalidRequest` and leaves the
session's graph slot untouched, whatever its previous state. -/
theorem uploadGraph_invalid_preserves_session (ctx : ClientContext)
    (h : MessageHeader) (payload : List Nat) (msg : String)
    (hcmd : h.command = cmdUploadGraph)
    (hdec : decodeGraphPayload payload = .error msg) :
    (handleRequest ctx h payload).1 = ctx ∧
    (handleRequest ctx h payload).2.1.command = cmdError ∧
    (handleRequest ctx h payload).2.1.status = stInvalidRequest := by
  simp only [handleRequest, hcmd, hdec, finishResponse]
  norm_num [cmdHelp, cmdUploadGraph]

/-- Witness for C9: a session already holding the cycle graph receives the
5-vertex upload (the claim's example) and is left unchanged. -/
theorem uploadGraph_invalid_preserves_session_witness :
    (handleRequest loadedContext uploadHeader fiveVertexBuffer).1 =
      loadedContext ∧
    (handleRequest loadedContext uploadHeader fiveVertexBuffer).2.1.command =
      cmdError ∧
    (handleRequest loadedContext uploadHeader fiveVertexBuffer).2.1.status =
      stInvalidRequest :=
  uploadGraph_invalid_preserves_session loadedContext uploadHeader
    fiveVertexBuffer "The graph must contain at least 6 vertices."
    (by rfl) (by rfl)

end Theorems2

section Theorems3

open NetProto GraphModel ServerModel ClientModel

/-- Helper: the per-column check succeeds exactly when the column has only
0/1 entries and one or two ones. -/
theorem checkColumn_ok_iff (g : GraphDefinition) (e : Nat) :
    checkColumn g e = .ok () ↔
      ((∀ v < g.vertexCount, entryI g v e = 0 ∨ entryI g v e = 1) ∧
       (columnOnes g e = 1 ∨ columnOnes g e = 2)) := by
  have hall : ((List.range g.vertexCount).all
      (fun v => entryI g v e == 0 || entryI g v e == 1)) = true ↔
      (∀ v < g.vertexCount, entryI g v e = 0 ∨ entryI g v e = 1) := by
    simp [List.all_eq_true, List.mem_range]
  unfold checkColumn
  split_ifs with h1 h2 h3
  · constructor
    · intro h; exact absurd h (by simp)
    · intro hr; rcases hr.2 with h | h <;> omega
  · constructor
    · intro h; exact absurd h (by simp)
    · intro hr; rcases hr.2 with h | h <;> omega
  · constructor
    · intro _; exact ⟨hall.mp h1, by omega⟩
    · intro _; rfl
  · constructor
    · intro h; exact absurd h (by simp)
    · intro hr; exact absurd (hall.mpr hr.1) h1

/-- Helper: iterating the column check succeeds exactly when every listed
column passes. -/
theorem checkColumns_ok_iff (g : GraphDefinition) (es : List Nat) :
    checkColumns g es = .ok () ↔ ∀ e ∈ es, checkColumn g e = .ok () := by
  induction es with
  | nil => simp [checkColumns]
  | cons e rest ih =>
    unfold checkColumns
    cases hc : checkColumn g e with
    | error m => simp [hc]
    | ok u => cases u; simp [hc, ih]

/-- Helper: the incidence-matrix check succeeds exactly when the matrix
has the right shape and every column passes the column check. -/
theorem checkMatrix_ok_iff (g : GraphDefinition) :
    checkIncidenceMatrix g = .ok () ↔
      (g.incidence.length = g.vertexCount ∧
       (∀ row ∈ g.incidence, row.length = g.edgeCount) ∧
       ∀ e < g.edgeCount,
         ((∀ v < g.vertexCount, entryI g v e = 0 ∨ entryI g v e = 1) ∧
          (columnOnes g e = 1 ∨ columnOnes g e = 2))) := by
  unfold checkIncidenceMatrix
  split_ifs with h1 h2
  · constructor
    · intro h; exact absurd h (by simp)
    · intro hr; exact absurd hr.1 h1
  · constructor
    · intro h; exact absurd h (by simp)
    · intro hr
      rw [List.any_eq_true] at h2
      obtain ⟨row, hrow, hbad⟩ := h2
      simp at hbad
      exact absurd (hr.2.1 row hrow) hbad
  · rw [checkColumns_ok_iff]
    constructor
    · intro h
      refine ⟨not_ne_iff.mp h1, ?_, ?_⟩
      · intro row hrow
        rw [List.any_eq_true] at h2
        push_neg at h2
        have := h2 row hrow
        simpa using this
      · intro e he
        rw [← checkColumn_ok_iff]
        exact h e (List.mem_range.mpr he)
    · intro hr e he
      rw [checkColumn_ok_iff]
      exact hr.2.2 e (List.mem_range.mp he)

/-- C4 (amended): `validateGraph` reports ok exactly for graphs with at
least 6 vertices and 6 edges, exactly one weight per edge each at most
(not strictly below) the infinity sentinel, and a well-shaped 0/1
incidence matrix whose columns each hold one or two ones. -/
theorem validateGraph_ok_iff_amended (g : GraphDefinition) :
    (validateGraph g).ok = true ↔ amendedValidGraph g := by
  unfold validateGraph kMinVertices kMinEdges
  split_ifs with h1 h2 h3 h4
  · constructor
    · intro h; exact absurd h (by simp)
    · intro hr
      obtain ⟨ha, hb, hc, hd, he, hf, hg⟩ := hr
      omega
  · constructor
    · intro h; exact absurd h (by simp)
    · intro hr
      obtain ⟨ha, hb, hc, hd, he, hf, hg⟩ := hr
      omega
  · constructor
    · intro h; exact absurd h (by simp)
    · intro hr
      obtain ⟨ha, hb, hc, hd, he, hf, hg⟩ := hr
      exact absurd hc h3
  · constructor
    · intro h; exact absurd h (by simp)
    · intro hr
      obtain ⟨ha, hb, hc, hd, he, hf, hg⟩ := hr
      rw [List.any_eq_true] at h4
      obtain ⟨w, hw, hgt⟩ := h4
      simp at hgt
      have := hd w hw
      omega
  · cases hm : checkIncidenceMatrix g with
    | error m =>
      constructor
      · intro h; exact absurd h (by simp)
      · intro hr
        obtain ⟨ha, hb, hc, hd, he, hf, hg⟩ := hr
        have hok : checkIncidenceMatrix g = .ok () := by
          rw [checkMatrix_ok_iff]
          exact ⟨he, hf, hg⟩
        rw [hm] at hok
        exact absurd hok (by simp)
    | ok u =>
      cases u
      constructor
      · intro _
        have hck := (checkMatrix_ok_iff g).mp hm
        refine ⟨by omega, by omega, not_ne_iff.mp h3, ?_,
          hck.1, hck.2.1, hck.2.2⟩
        intro w hw
        rw [List.any_eq_true] at h4
        push_neg at h4
        have := h4 w hw
        simpa using this
      · intro _; rfl

end Theorems3

section Theorems4

open NetProto GraphModel ServerModel ClientModel

/-- Helper: if one edge relaxation reports no update, it changed nothing
and the incoming flag was already false. -/
theorem relaxStep_no_update (source : Nat) (st : BFState) (b : Bool)
    (e : Nat × Nat × Nat) (h : (relaxStep source (st, b) e).2 = false) :
    b = false ∧ (relaxStep source (st, b) e).1 = st := by
  unfold relaxStep at h ⊢
  dsimp only at h ⊢
  split_ifs at h ⊢
  all_goals simp_all

/-- Helper: a fold of edge relaxations that ends with the flag down never
raised it and left the state untouched. -/
theorem relaxFold_no_update (source : Nat) (edges : List (Nat × Nat × Nat)) :
    ∀ (st : BFState) (b : Bool),
      (edges.foldl (relaxStep source) (st, b)).2 = false →
      b = false ∧ (edges.foldl (relaxStep source) (st, b)).1 = st := by
  induction edges with
  | nil => intro st b h; exact ⟨h, rfl⟩
  | cons e rest ih =>
    intro st b h
    rw [List.foldl_cons] at h ⊢
    have hpair : relaxStep source (st, b) e =
        ((relaxStep source (st, b) e).1, (relaxStep source (st, b) e).2) :=
      rfl
    rw [hpair] at h ⊢
    have hrec := ih (relaxStep source (st, b) e).1
      (relaxStep source (st, b) e).2 h
    have hstep := relaxStep_no_update source st b e hrec.1
    exact ⟨hstep.1, by rw [hrec.2, hstep.2]⟩

/-- Helper: a pass with no update is the identity on the state. -/
theorem relaxPass_fix (edges : List (Nat × Nat × Nat)) (source : Nat)
    (st : BFState) (h : (relaxPass edges source st).2 = false) :
    relaxPass edges source st = (st, false) := by
  have hh := relaxFold_no_update source edges st false h
  unfold relaxPass at h ⊢
  exact Prod.ext hh.2 h

/-- Helper: once a pass is the identity, any number of further full
passes keeps the state fixed. -/
theorem bfLoopFull_fix (edges : List (Nat × Nat × Nat)) (source : Nat)
    (st : BFState) (h : relaxPass edges source st = (st, false)) :
    ∀ k, bfLoopFull edges source k st = st := by
  intro k
  induction k with
  | zero => rfl
  | succ k ih =>
    unfold bfLoopFull
    rw [h]
    exact ih

/-- Helper: the early-exit relaxation loop computes the same state as the
loop that always runs all its passes. -/
theorem bfLoop_eq_full (edges : List (Nat × Nat × Nat)) (source : Nat) :
    ∀ (k : Nat) (st : BFState),
      bfLoop edges source k st = bfLoopFull edges source k st := by
  intro k
  induction k with
  | zero => intro st; rfl
  | succ k ih =>
    intro st
    unfold bfLoop bfLoopFull
    cases hu : (relaxPass edges source st).2 with
    | true => simp only [hu, if_true]; exact ih _
    | false =>
      simp only [hu, Bool.false_eq_true, if_false]
      have hfix := relaxPass_fix edges source st hu
      have h1 : (relaxPass edges source st).1 = st := by rw [hfix]
      rw [h1]
      exact (bfLoopFull_fix edges source st hfix k).symm

/-- Helper: the full algorithms agree on every input, early exit or not. -/
theorem bellmanFord_eq_unoptimized (g : GraphDefinition)
    (source target : Nat) :
    bellmanFord g source target = bellmanFordUnoptimized g source target := by
  unfold bellmanFord bellmanFordUnoptimized
  simp only [bfLoop_eq_full]

/-- C10: for every valid graph and in-range source and target, the
early-exit Bellman-Ford returns exactly the same result (reachability,
distance, path and error) as the variant that always runs all
`vertexCount - 1` relaxation passes. -/
theorem bellmanFord_earlyExit_refines (g : GraphDefinition)
    (source target : Nat)
    (hval : (validateGraph g).ok = true)
    (hs : source < g.vertexCount) (ht : target < g.vertexCount) :
    bellmanFord g source target = bellmanFordUnoptimized g source target :=
  bellmanFord_eq_unoptimized g source target

/-- Witness for C10 on the cycle graph with query 0 to 3. -/
theorem bellmanFord_earlyExit_refines_witness :
    bellmanFord cycleGraph 0 3 = bellmanFordUnoptimized cycleGraph 0 3 :=
  bellmanFord_earlyExit_refines cycleGraph 0 3 (by decide) (by decide)
    (by decide)

end Theorems4

section Theorems5

open NetProto GraphModel ServerModel ClientModel

/-- Helper: when an attempt fails, the schedule it hands to the next
attempt is a suffix of the one it consumed. -/
theorem runAttempt_fail_sub (reqId : Nat) (sched rest : List WaitOutcome)
    (h : runAttempt reqId sched = .fail rest) :
    ∀ o ∈ rest, o ∈ sched := by
  unfold runAttempt at h
  cases sched with
  | nil =>
    cases h
    simp
  | cons head tail =>
    cases head with
    | none =>
      cases h
      intro o ho
      exact List.mem_cons_of_mem _ ho
    | some dgram =>
      dsimp only at h
      repeat' split at h
      all_goals try cases h
      all_goals intro o ho
      all_goals simp_all [List.mem_cons]

/-- Helper: an attempt can only return a response if some schedule entry
carried a datagram whose parsed requestId matches the request. -/
theorem runAttempt_success_qualifies (reqId : Nat)
    (sched : List WaitOutcome) (hd : MessageHeader) (p : List Nat)
    (h : runAttempt reqId sched = .success hd p) :
    ∃ o ∈ sched, qualifies reqId o = true := by
  unfold runAttempt at h
  cases sched with
  | nil => cases h
  | cons head tail =>
    cases head with
    | none => cases h
    | some dgram =>
      refine ⟨some dgram, List.mem_cons_self _ _, ?_⟩
      dsimp only at h
      unfold qualifies
      repeat' split at h
      all_goals try cases h
      all_goals simp_all

/-- Helper: if no schedule entry is a matching empty `Ack`, a successful
attempt can only have taken the direct branch, whose response has the
matching requestId and a non-`Ack` command. -/
theorem runAttempt_success_filter (reqId : Nat) (sched : List WaitOutcome)
    (hyp : ∀ o ∈ sched, matchingEmptyAck reqId o = false)
    (hd : MessageHeader) (p : List Nat)
    (h : runAttempt reqId sched = .success hd p) :
    hd.requestId = reqId ∧ hd.command ≠ cmdAck := by
  unfold runAttempt at h
  cases sched with
  | nil => cases h
  | cons head tail =>
    cases head with
    | none => cases h
    | some dgram =>
      have hhead := hyp (some dgram) (List.mem_cons_self _ _)
      unfold matchingEmptyAck at hhead
      dsimp only at h
      repeat' split at h
      all_goals try cases h
      all_goals simp_all

/-- Helper: the retry loop's filter property, by induction on the number
of remaining attempts. -/
theorem udpAttempts_filter (reqId : Nat) :
    ∀ (n : Nat) (sched : List WaitOutcome),
      (∀ o ∈ sched, matchingEmptyAck reqId o = false) →
      ∀ hd p, (udpAttempts reqId n sched).2 = some (hd, p) →
      hd.requestId = reqId ∧ hd.command ≠ cmdAck := by
  intro n
  induction n with
  | zero =>
    intro sched hyp hd p h
    simp [udpAttempts] at h
  | succ n ih =>
    intro sched hyp hd p h
    unfold udpAttempts at h
    cases hra : runAttempt reqId sched with
    | success h2 p2 =>
      rw [hra] at h
      dsimp only at h
      have hfix := runAttempt_success_filter reqId sched hyp h2 p2 hra
      have heq : h2 = hd ∧ p2 = p := by
        injection h with h
        injection h with e1 e2
        exact ⟨e1, e2⟩
      rw [← heq.1]
      exact hfix
    | fail rest =>
      rw [hra] at h
      dsimp only at h
      exact ih rest
        (fun o ho => hyp o (runAttempt_fail_sub reqId sched rest hra o ho))
        hd p h

/-- Helper: with no qualifying datagram anywhere in the schedule, every
attempt fails, each one sends once, and the loop returns no response. -/
theorem udpAttempts_no_qualify (reqId : Nat) :
    ∀ (n : Nat) (sched : List WaitOutcome),
      (∀ o ∈ sched, qualifies reqId o = false) →
      udpAttempts reqId n sched = (n, none) := by
  intro n
  induction n with
  | zero => intro sched hyp; rfl
  | succ n ih =>
    intro sched hyp
    unfold udpAttempts
    cases hra : runAttempt reqId sched with
    | success h2 p2 =>
      obtain ⟨o, ho, hq⟩ := runAttempt_success_qualifies reqId sched h2 p2 hra
      rw [hyp o ho] at hq
      cases hq
    | fail rest =>
      dsimp only
      rw [ih rest
        (fun o ho => hyp o (runAttempt_fail_sub reqId sched rest hra o ho))]

/-- C8: if no requestId-matching datagram ever arrives in any wait
window, `sendUdpWithAck` performs exactly 3 sends of the identical packet
and returns no response; it never starts a fourth attempt. -/
theorem sendUdpWithAck_retries_exhausted (reqId : Nat)
    (sched : List WaitOutcome)
    (hyp : ∀ o ∈ sched, qualifies reqId o = false) :
    sendUdpWithAck reqId sched = (3, none) := by
  unfold sendUdpWithAck kAckRetries
  exact udpAttempts_no_qualify reqId 3 sched hyp

/-- Witness for C8: two timeouts and one short garbage datagram. -/
theorem sendUdpWithAck_retries_exhausted_witness :
    sendUdpWithAck 1 silentSchedule = (3, none) :=
  sendUdpWithAck_retries_exhausted 1 silentSchedule (by decide)

/-- C1 (amended): as long as no matching empty `Ack` arrives - that is,
for every response accepted in the first wait - the returned header has
the request's id and a non-`Ack` command, and non-matching datagrams are
discarded; only the second datagram awaited after a matching `Ack` escapes
this filter (see the counterexample). -/
theorem udp_firstWait_filter (reqId : Nat) (sched : List WaitOutcome)
    (hyp : ∀ o ∈ sched, matchingEmptyAck reqId o = false)
    (hd : MessageHeader) (p : List Nat)
    (h : (sendUdpWithAck reqId sched).2 = some (hd, p)) :
    hd.requestId = reqId ∧ hd.command ≠ cmdAck :=
  udpAttempts_filter reqId kAckRetries sched hyp hd p h

/-- Witness for C1's amended theorem: a direct non-`Ack` response with the
matching id 5 is accepted and indeed satisfies the filter. -/
theorem udp_firstWait_filter_witness :
    directHeader.requestId = 5 ∧ directHeader.command ≠ cmdAck :=
  udp_firstWait_filter 5 directSchedule (by decide) directHeader []
    (by decide)

end Theorems5

section Theorems6

open NetProto GraphModel ServerModel ClientModel

/-- Helper: extracting bit `i` of a packed byte recovers the `i`-th bit of
the chunk, for bit-valued entries. -/
theorem byteVal_testBit (c : List Nat) (hc : ∀ b ∈ c, b ≤ 1) :
    ∀ i, byteVal c / 2 ^ i % 2 = c.getD i 0 := by
  induction c with
  | nil => intro i; simp [byteVal]
  | cons b r ih =>
    intro i
    have hb : b ≤ 1 := hc b (by simp)
    have hr : ∀ x ∈ r, x ≤ 1 := fun x hx => hc x (by simp [hx])
    cases i with
    | zero =>
      simp only [pow_zero, Nat.div_one, List.getD_cons_zero, byteVal]
      omega
    | succ j =>
      have hstep : byteVal (b :: r) / 2 ^ (j + 1) = byteVal r / 2 ^ j := by
        have h2 : byteVal (b :: r) / 2 = byteVal r := by
          show (b + 2 * byteVal r) / 2 = byteVal r
          omega
        rw [pow_succ']
        rw [← Nat.div_div_eq_div_mul]
        rw [h2]
      rw [hstep, List.getD_cons_succ]
      exact ih hr j

/-- Helper: any list of length at least 8 splits off its first 8 elements. -/
theorem long_list_decomp (l : List Nat) (h : 8 ≤ l.length) :
    ∃ b0 b1 b2 b3 b4 b5 b6 b7 rest,
      l = b0 :: b1 :: b2 :: b3 :: b4 :: b5 :: b6 :: b7 :: rest := by
  rcases l with _ | ⟨b0, _ | ⟨b1, _ | ⟨b2, _ | ⟨b3, _ |
    ⟨b4, _ | ⟨b5, _ | ⟨b6, _ | ⟨b7, rest⟩⟩⟩⟩⟩⟩⟩⟩
  all_goals simp_all

/-- Helper: a nonempty bit list shorter than a byte packs to one byte. -/
theorem bytesOfBits_short (l : List Nat) (h0 : l ≠ []) (h8 : l.length < 8) :
    bytesOfBits l = [byteVal l] := by
  rcases l with _ | ⟨b0, _ | ⟨b1, _ | ⟨b2, _ | ⟨b3, _ |
    ⟨b4, _ | ⟨b5, _ | ⟨b6, _ | ⟨b7, rest⟩⟩⟩⟩⟩⟩⟩⟩
  · exact absurd rfl h0
  all_goals first
    | (exfalso; simp only [List.length_cons] at h8; omega)
    | rfl

/-- Helper: packing produces exactly the ceiling number of bytes. -/
theorem bytesOfBits_length (bl : List Nat) :
    (bytesOfBits bl).length = (bl.length + 7) / 8 := by
  induction bl using bytesOfBits.induct with
  | case1 => rfl
  | case2 b0 b1 b2 b3 b4 b5 b6 b7 rest ih =>
    show (byteVal [b0, b1, b2, b3, b4, b5, b6, b7] ::
      bytesOfBits rest).length = _
    simp only [List.length_cons, ih]
    omega
  | case3 l h0 h8 =>
    have hne : l ≠ [] := fun he => h0 he
    have hlen : l.length < 8 := by
      by_contra hge
      push_neg at hge
      obtain ⟨b0, b1, b2, b3, b4, b5, b6, b7, rest, heq⟩ :=
        long_list_decomp l hge
      exact h8 b0 b1 b2 b3 b4 b5 b6 b7 rest heq
    rw [bytesOfBits_short l hne hlen]
    have hpos : l.length ≠ 0 := by
      intro hz
      exact hne (List.length_eq_zero.mp hz)
    simp only [List.length_cons, List.length_nil]
    omega

/-- Helper: reading past the first eight elements of a list. -/
theorem getD_cons8 (a0 a1 a2 a3 a4 a5 a6 a7 : Nat) (l : List Nat)
    (k : Nat) :
    (a0 :: a1 :: a2 :: a3 :: a4 :: a5 :: a6 :: a7 :: l).getD (k + 8) 0 =
      l.getD k 0 := by
  rw [show k + 8 = k + 7 + 1 from by omega, List.getD_cons_succ]
  rw [show k + 7 = k + 6 + 1 from by omega, List.getD_cons_succ]
  rw [show k + 6 = k + 5 + 1 from by omega, List.getD_cons_succ]
  rw [show k + 5 = k + 4 + 1 from by omega, List.getD_cons_succ]
  rw [show k + 4 = k + 3 + 1 from by omega, List.getD_cons_succ]
  rw [show k + 3 = k + 2 + 1 from by omega, List.getD_cons_succ]
  rw [show k + 2 = k + 1 + 1 from by omega, List.getD_cons_succ]
  rw [show k + 1 = k + 0 + 1 from by omega, List.getD_cons_succ]

/-- Helper: bit `i` of the packed block is the `i`-th bit of the original
bit list, for any in-range `i`. -/
theorem getBit_bytesOfBits (bl : List Nat) (hb : ∀ b ∈ bl, b ≤ 1) :
    ∀ i, i < bl.length → getBit (bytesOfBits bl) i = bl.getD i 0 := by
  induction bl using bytesOfBits.induct with
  | case1 => intro i hi; simp at hi
  | case2 b0 b1 b2 b3 b4 b5 b6 b7 rest ih =>
    intro i hi
    show getBit (byteVal [b0, b1, b2, b3, b4, b5, b6, b7] ::
      bytesOfBits rest) i = _
    by_cases h8 : i < 8
    · unfold getBit
      rw [show i / 8 = 0 from by omega, show i % 8 = i from by omega,
        List.getD_cons_zero]
      have hc : ∀ b ∈ [b0, b1, b2, b3, b4, b5, b6, b7], b ≤ 1 := by
        intro b hbm
        apply hb
        simp only [List.mem_cons, List.not_mem_nil, or_false] at hbm ⊢
        tauto
      rw [byteVal_testBit _ hc i]
      interval_cases i <;> rfl
    · obtain ⟨j, rfl⟩ : ∃ j, i = j + 8 := ⟨i - 8, by omega⟩
      unfold getBit
      rw [show (j + 8) / 8 = j / 8 + 1 from by omega,
        show (j + 8) % 8 = j % 8 from by omega, List.getD_cons_succ,
        getD_cons8]
      have hrest : ∀ b ∈ rest, b ≤ 1 := by
        intro b hbm
        apply hb
        simp only [List.mem_cons]
        tauto
      have hlt : j < rest.length := by
        simp only [List.length_cons] at hi
        omega
      have ihh := ih hrest j hlt
      unfold getBit at ihh
      exact ihh
  | case3 l h0 h8 =>
    intro i hi
    have hne : l ≠ [] := fun he => h0 he
    have hlen : l.length < 8 := by
      by_contra hge
      push_neg at hge
      obtain ⟨b0, b1, b2, b3, b4, b5, b6, b7, rest, heq⟩ :=
        long_list_decomp l hge
      exact h8 b0 b1 b2 b3 b4 b5 b6 b7 rest heq
    rw [bytesOfBits_short l hne hlen]
    unfold getBit
    rw [show i / 8 = 0 from by omega, show i % 8 = i from by omega,
      List.getD_cons_zero]
    exact byteVal_testBit l hb i

/-- Helper: the flattening of a rectangular matrix has `rows * cols`
entries. -/
theorem flatten_length_rect (m : List (List Nat)) (ec : Nat)
    (h : ∀ row ∈ m, row.length = ec) : m.flatten.length = m.length * ec := by
  induction m with
  | nil => simp
  | cons row rest ih =>
    simp only [List.flatten_cons, List.length_append, List.length_cons]
    rw [h row (by simp), ih (fun r hr => h r (by simp [hr]))]
    ring

/-- Helper: row-major indexing into the flattening of a rectangular
matrix. -/
theorem flatten_getD_rect (m : List (List Nat)) (ec : Nat)
    (h : ∀ row ∈ m, row.length = ec) :
    ∀ v e, v < m.length → e < ec →
      m.flatten.getD (v * ec + e) 0 = (m.getD v []).getD e 0 := by
  induction m with
  | nil => intro v e hv _; simp at hv
  | cons row rest ih =>
    intro v e hv he
    have hrow : row.length = ec := h row (by simp)
    cases v with
    | zero =>
      simp only [List.flatten_cons, Nat.zero_mul, Nat.zero_add,
        List.getD_cons_zero]
      rw [List.getD_eq_getElem?_getD, List.getD_eq_getElem?_getD,
        List.getElem?_append, if_pos (by omega)]
    | succ v =>
      simp only [List.flatten_cons, List.getD_cons_succ]
      have hm : (v + 1) * ec = v * ec + ec := Nat.succ_mul v ec
      rw [List.getD_eq_getElem?_getD,
        List.getElem?_append_right (by omega),
        show (v + 1) * ec + e - row.length = v * ec + e from by omega,
        ← List.getD_eq_getElem?_getD]
      exact ih (fun r hr => h r (by simp [hr])) v e (by simpa using hv) he

/-- C6: for every rectangular 0/1 incidence matrix with at least one
vertex and one edge, unpacking the packed bit block with the matching
counts reproduces the matrix exactly. -/
theorem pack_unpack_roundtrip (vc ec : Nat) (m : List (List Int))
    (hvc : 1 ≤ vc) (hec : 1 ≤ ec)
    (hlen : m.length = vc)
    (hrows : ∀ row ∈ m, row.length = ec)
    (hentries : ∀ row ∈ m, ∀ x ∈ row, x = 0 ∨ x = 1) :
    unpackIncidenceMatrix vc ec (packIncidenceMatrix m) = .ok m := by
  have hblrows : ∀ row ∈ m.map (fun row => row.map bitOf),
      row.length = ec := by
    intro row hr
    simp only [List.mem_map] at hr
    obtain ⟨r0, hr0, rfl⟩ := hr
    simpa using hrows r0 hr0
  have hbllen : ((m.map (fun row => row.map bitOf)).flatten).length =
      vc * ec := by
    rw [flatten_length_rect _ ec hblrows, List.length_map, hlen]
  have hblbits : ∀ b ∈ (m.map (fun row => row.map bitOf)).flatten,
      b ≤ 1 := by
    intro b hbmem
    simp only [List.mem_flatten, List.mem_map] at hbmem
    obtain ⟨row, ⟨r0, hr0, rfl⟩, hbrow⟩ := hbmem
    simp only [List.mem_map] at hbrow
    obtain ⟨x, hx, rfl⟩ := hbrow
    unfold bitOf
    split <;> omega
  have hpack : packIncidenceMatrix m =
      bytesOfBits ((m.map (fun row => row.map bitOf)).flatten) := by
    unfold packIncidenceMatrix
    cases m with
    | nil => simp at hlen; omega
    | cons row0 rest =>
      dsimp only
      rw [if_neg (show ¬ row0.length = 0 from by
        have := hrows row0 (by simp)
        omega)]
  rw [hpack]
  unfold unpackIncidenceMatrix
  rw [if_neg (by omega), if_neg (by
    rw [not_ne_iff, bytesOfBits_length, hbllen])]
  congr 1
  apply List.ext_getElem
  · simp [hlen]
  · intro v hv1 hv2
    rw [List.getElem_map, List.getElem_range]
    have hv : v < vc := by simpa using hv1
    apply List.ext_getElem
    · simp [hrows m[v] (List.getElem_mem hv2)]
    · intro e he1 he2
      rw [List.getElem_map, List.getElem_range]
      have he : e < ec := by simpa using he1
      have hidx : v * ec + e <
          ((m.map (fun row => row.map bitOf)).flatten).length := by
        rw [hbllen]
        have h1 : (v + 1) * ec ≤ vc * ec :=
          Nat.mul_le_mul_right ec (by omega)
        have h2 : (v + 1) * ec = v * ec + ec := Nat.succ_mul v ec
        omega
      rw [getBit_bytesOfBits _ hblbits _ hidx]
      rw [flatten_getD_rect _ ec hblrows v e (by simpa using hv2) he]
      have hmv : (m.map (fun row => row.map bitOf)).getD v [] =
          (m[v]).map bitOf := by
        rw [List.getD_eq_getElem?_getD, List.getElem?_map,
          List.getElem?_eq_getElem hv2]
        rfl
      rw [hmv]
      have hev : e < (m[v]).length := by
        rw [hrows m[v] (List.getElem_mem hv2)]
        exact he
      have hbit : ((m[v]).map bitOf).getD e 0 = bitOf m[v][e] := by
        rw [List.getD_eq_getElem?_getD, List.getElem?_map,
          List.getElem?_eq_getElem hev]
        rfl
      rw [hbit]
      rcases hentries m[v] (List.getElem_mem hv2) m[v][e]
          (List.getElem_mem hev) with hx | hx
      · rw [hx]; simp [bitOf]
      · rw [hx]; simp [bitOf]

/-- Witness for C6 on the cycle graph's 6-by-6 incidence matrix. -/
theorem pack_unpack_roundtrip_witness :
    unpackIncidenceMatrix 6 6 (packIncidenceMatrix cycleMatrix) =
      .ok cycleMatrix :=
  pack_unpack_roundtrip 6 6 cycleMatrix (by decide) (by decide) (by decide)
    (by decide) (by decide)

end Theorems6
